import Mathlib

/-!
Shallow embedding of the service-ca-operator sources:
  * `pkg/controller/configmapcainjector/controller/configmap_injecting_controller.go`
    (the ConfigMap CA-bundle injector), and
  * the operator status file (`syncStatus` and its condition setters).

Go maps are modelled as association lists (`List (String × String)`); a
well-formed Kubernetes object has pairwise-distinct keys, and `List.lookup`
then agrees with Go map indexing while `List.length` agrees with `len`.
External collaborators (the store client, the condition helper
`v1helpers.SetOperatorCondition` from library-go) are modelled by their
documented behaviour: an update call is recorded as a value rather than
performed, and a fetch is a pure function from deployment name to result.
-/

namespace ServiceCAOperator

/-- The data key under which the CA bundle is injected.
Modelled from the spec (§6, annotation contract): "a designated single data
key holds the injected value"; the concrete string is immaterial to every
property proved here. Source constant: `api.InjectionDataKey` (its defining
file is not part of the sources provided). -/
def InjectionDataKey : String := "service-ca.crt"

/-- The trigger marker key.
Modelled from the spec (§6, annotation contract): "a designated trigger
annotation key on target objects signals injection eligibility". The source
constant is the inject-cabundle marker key of `pkg/controller/api`. -/
def injectCABundleMarkerKey : String := "service.alpha.openshift.io/inject-cabundle"

/-- A `corev1.ConfigMap`, restricted to the fields the injector reads or
writes: namespace, name, the metadata marker mapping, and `Data`. -/
structure ConfigMap where
  ns : String
  name : String
  annots : List (String × String)
  data : List (String × String)
deriving DecidableEq, Repr

/-- Modelled from the spec (§4.5, §6): the predicate
`api.HasInjectCABundleAnnotation` of the source (defining file not among
the provided sources) — the object carries the designated trigger marker
key. -/
def hasInjectCABundleMarker (cm : ConfigMap) : Bool :=
  (cm.annots.lookup injectCABundleMarkerKey).isSome

/-- Source function `ensureConfigMapCABundleInjection`
(configmap_injecting_controller.go, lines 55-66). Returns the ConfigMap
submitted to the store's `Update` call, or `none` when the update is
skipped: the Go code returns early (no update) when
`Data[InjectionDataKey]` equals the operator's CA and `len(Data) == 1`;
otherwise it updates a defensive copy whose `Data` is replaced by the
single-entry map. The field `ca` of the controller struct is the `ca`
parameter here. -/
def ensureConfigMapCABundleInjection (ca : String) (current : ConfigMap) : Option ConfigMap :=
  let configMapCopy := current
  if configMapCopy.data.lookup InjectionDataKey = some ca ∧ configMapCopy.data.length = 1 then
    none
  else
    some { configMapCopy with data := [(InjectionDataKey, ca)] }

/-- Source method `Sync` (configmap_injecting_controller.go, lines 42-51):
re-check the trigger marker, then ensure the data. The returned value is
the update call issued to the store (`none` = no update issued). -/
def sync (ca : String) (cm : ConfigMap) : Option ConfigMap :=
  if hasInjectCABundleMarker cm then
    ensureConfigMapCABundleInjection ca cm
  else
    none

/-- The error `Sync` returns, given the behaviour `updateErr` of the external
store's `Update` call: `Sync` propagates the update's error when it issues an
update, and returns nil otherwise. -/
def syncResultError (ca : String) (updateErr : ConfigMap → Option String) (cm : ConfigMap) : Option String :=
  match sync ca cm with
  | none => none
  | some u => updateErr u

/-- One `Sync` against a store holding `cm`: the store contents afterwards
(an issued update replaces the stored object) and the number of external
update calls issued. -/
def applySync (ca : String) (cm : ConfigMap) : ConfigMap × Nat :=
  match sync ca cm with
  | none => (cm, 0)
  | some u => (u, 1)

/-! ## Operator status: conditions and `syncStatus` -/

/-- Model of `operatorv1.ConditionStatus`: the code writes `True`/`False`;
`Unknown` exists in the API and may be present in pre-existing conditions. -/
inductive ConditionStatus where
  | ctrue
  | cfalse
  | cunknown
deriving DecidableEq, Repr

/-- Model of `operatorv1.OperatorCondition`, restricted to the fields the
code reads or writes (`LastTransitionTime` is not modelled). -/
structure OperatorCondition where
  type : String
  status : ConditionStatus
  reason : String
  message : String
deriving DecidableEq, Repr

/-- Model of `v1helpers.SetOperatorCondition` (library-go, external
collaborator; spec §3: each condition name appears at most once, updates
replace in place preserving relative order, a new name is appended): find
the first condition of the given type and overwrite its status, reason and
message; append the condition when the type is absent. -/
def setOperatorCondition : List OperatorCondition → OperatorCondition → List OperatorCondition
  | [], c => [c]
  | x :: xs, c =>
    if x.type = c.type then
      { x with status := c.status, reason := c.reason, message := c.message } :: xs
    else
      x :: setOperatorCondition xs c

/-- Model of `v1helpers.FindOperatorCondition`: first condition of the
given type. -/
def findOperatorCondition (t : String) : List OperatorCondition → Option OperatorCondition
  | [] => none
  | c :: cs => if c.type = t then some c else findOperatorCondition t cs

/-- Source function `setFailingTrue` (status file, lines 17-25). -/
def setFailingTrue (conds : List OperatorCondition) (reason message : String) : List OperatorCondition :=
  setOperatorCondition conds ⟨"Failing", ConditionStatus.ctrue, reason, message⟩

/-- Source function `setFailingFalse` (status file, lines 27-34); defined in
the source, never called from `syncStatus`. -/
def setFailingFalse (conds : List OperatorCondition) (reason : String) : List OperatorCondition :=
  setOperatorCondition conds ⟨"Failing", ConditionStatus.cfalse, reason, ""⟩

/-- Source function `setProgressingTrue` (status file, lines 36-43). -/
def setProgressingTrue (conds : List OperatorCondition) (reason message : String) : List OperatorCondition :=
  setOperatorCondition conds ⟨"Progressing", ConditionStatus.ctrue, reason, message⟩

/-- Source function `setAvailableTrue` (status file, lines 45-51): no
message field. -/
def setAvailableTrue (conds : List OperatorCondition) (reason : String) : List OperatorCondition :=
  setOperatorCondition conds ⟨"Available", ConditionStatus.ctrue, reason, ""⟩

/-- Source function `setProgressingFalse` (status file, lines 53-60). -/
def setProgressingFalse (conds : List OperatorCondition) (reason message : String) : List OperatorCondition :=
  setOperatorCondition conds ⟨"Progressing", ConditionStatus.cfalse, reason, message⟩

/-- Source function `setAvailableFalse` (status file, lines 62-69). -/
def setAvailableFalse (conds : List OperatorCondition) (reason message : String) : List OperatorCondition :=
  setOperatorCondition conds ⟨"Available", ConditionStatus.cfalse, reason, message⟩

/-- An `appsv1.Deployment`, restricted to the fields `syncStatus` and its
helpers read. Replica counts and generations are Go `int32`/`int64`,
modelled as `Int`; `DeletionTimestamp != nil` is modelled as a flag. -/
structure Deployment where
  specReplicas : Option Int
  generation : Int
  statusReplicas : Int
  updatedReplicas : Int
  availableReplicas : Int
  observedGeneration : Int
  deletionTimestampSet : Bool
deriving DecidableEq, Repr

/-- Source function `isDeploymentStatusAvailable` (status file, lines 71-73). -/
def isDeploymentStatusAvailable (d : Deployment) : Bool :=
  decide (d.availableReplicas > 0)

/-- Source function `isDeploymentStatusAvailableAndUpdated` (status file,
lines 79-83). -/
def isDeploymentStatusAvailableAndUpdated (d : Deployment) : Bool :=
  decide (d.availableReplicas > 0) &&
    decide (d.observedGeneration ≥ d.generation) &&
    decide (d.updatedReplicas = d.statusReplicas)

/-- Source function `isDeploymentStatusComplete` (status file, lines 85-94):
desired replicas default to 1 when `Spec.Replicas` is nil. -/
def isDeploymentStatusComplete (d : Deployment) : Bool :=
  let replicas : Int := match d.specReplicas with
    | some r => r
    | none => 1
  decide (d.updatedReplicas = replicas) &&
    decide (d.statusReplicas = replicas) &&
    decide (d.availableReplicas = replicas) &&
    decide (d.observedGeneration ≥ d.generation)

/-- Outcome of `c.appsv1Client.Deployments(ns).Get(dep, ...)`: NotFound, a
different error (carrying `err.Error()`), or the deployment. -/
inductive FetchResult where
  | notFound
  | otherError (e : String)
  | found (d : Deployment)
deriving DecidableEq, Repr

/-- The condition writes shared by the three retryable early returns of
`syncStatus` (lines 105-131): `setProgressingTrue` then `setAvailableFalse`,
both with reason `ManagedDeploymentsNotReady` and the same message. -/
def notReadyConds (conds : List OperatorCondition) (statusMsg : String) : List OperatorCondition :=
  setAvailableFalse (setProgressingTrue conds "ManagedDeploymentsNotReady" statusMsg)
    "ManagedDeploymentsNotReady" statusMsg

/-- The condition writes of the fatal early return of `syncStatus`
(lines 112-115): `setFailingTrue` with the status message as reason and the
error text as message, then `setAvailableFalse`. -/
def fetchErrorConds (conds : List OperatorCondition) (statusMsg e : String) : List OperatorCondition :=
  setAvailableFalse (setFailingTrue conds statusMsg e) "ManagedDeploymentsNotReady" statusMsg

/-- The `for` loop of `syncStatus` (status file, lines 101-146), with the
external `Get` modelled by `fetch`. `Sum.inl` is an early `return` out of
`syncStatus` (conditions already set, boolean, error); `Sum.inr` carries the
loop state at normal loop exit: `version_ready`,
`existingDeploymentsAndReplicas`, `deployment_complete`, `statusMsg`. -/
def syncStatusLoop (fetch : String → FetchResult) (conds : List OperatorCondition) :
    List String → Nat → Nat → Nat → String →
    Sum (List OperatorCondition × Bool × Option String) (Nat × Nat × Nat × String)
  | [], vr, ex, cp, msg => Sum.inr (vr, ex, cp, msg)
  | dep :: rest, vr, ex, cp, msg =>
    match fetch dep with
    | FetchResult.notFound =>
      Sum.inl (notReadyConds conds (s!"Deployment {dep} does not exist"), false, none)
    | FetchResult.otherError e =>
      Sum.inl (fetchErrorConds conds (s!"Error getting deployment {dep}") e, false, some e)
    | FetchResult.found d =>
      if d.deletionTimestampSet then
        Sum.inl (notReadyConds conds (s!"Deployment {dep} is being deleted"), false, none)
      else if !isDeploymentStatusAvailable d then
        Sum.inl (notReadyConds conds (s!"Deployment {dep} does not have available replicas"), false, none)
      else
        let ex1 := ex + 1
        let cp1 := if isDeploymentStatusComplete d then cp + 1 else cp
        let msg1 := if isDeploymentStatusComplete d then msg else s!"Deployment {dep} is creating replicas."
        let vr1 := if isDeploymentStatusAvailableAndUpdated d then vr + 1 else vr
        let msg2 := if isDeploymentStatusAvailableAndUpdated d then msg1 else s!"Deployment {dep} is updating"
        syncStatusLoop fetch conds rest vr1 ex1 cp1 msg2

/-- Source function `syncStatus` (status file, lines 96-181): run the
per-deployment loop, then the tier checks of lines 151-180. Returns the
final condition list of `operatorConfigCopy` together with the
`(bool, error)` pair of the source. -/
def syncStatus (fetch : String → FetchResult) (conds : List OperatorCondition)
    (deployments : List String) : List OperatorCondition × Bool × Option String :=
  match syncStatusLoop fetch conds deployments 0 0 0 "" with
  | Sum.inl r => r
  | Sum.inr (vr, ex, cp, msg) =>
    if cp = deployments.length then
      (setProgressingFalse (setAvailableTrue conds "ManagedDeploymentsCompleteAndUpdated")
        "ManagedDeploymentsCompleteAndUpdated" "All service-ca-operator deployments updated", true, none)
    else if vr = deployments.length then
      (setProgressingTrue (setAvailableTrue conds "ManagedDeploymentsAvailableAndUpdated")
        "ManagedDeploymentsAvailableAndUpdated" msg, true, none)
    else if ex = deployments.length then
      (setProgressingTrue (setAvailableTrue conds "ManagedDeploymentsAvailable")
        "ManagedDeploymentsAvailable" msg, false, none)
    else
      (conds, false, none)

/-- A fetched deployment passes all three disqualification checks of the
loop body: it was found, is not being deleted, and has available replicas. -/
def passes : FetchResult → Bool
  | FetchResult.found d => !d.deletionTimestampSet && isDeploymentStatusAvailable d
  | _ => false

/-- The early `return` of `syncStatus` keyed by the fetched state of the
first disqualifying deployment. The `found` case is only meaningful when
the deployment disqualifies (deletion timestamp set, or no available
replicas). -/
def earlyOut (conds : List OperatorCondition) (dep : String) :
    FetchResult → List OperatorCondition × Bool × Option String
  | FetchResult.notFound => (notReadyConds conds s!"Deployment {dep} does not exist", false, none)
  | FetchResult.otherError e => (fetchErrorConds conds (s!"Error getting deployment {dep}") e, false, some e)
  | FetchResult.found d =>
    if d.deletionTimestampSet then
      (notReadyConds conds s!"Deployment {dep} is being deleted", false, none)
    else
      (notReadyConds conds s!"Deployment {dep} does not have available replicas", false, none)

/-- Concrete fully-rolled-out deployment: one desired, one updated, one
available replica, observed generation current, not being deleted. -/
def dCompleteEx : Deployment := ⟨some 1, 1, 1, 1, 1, 1, false⟩

/-- Concrete ConfigMap whose data already holds exactly the injection key
mapped to the CA value "myca", carrying the trigger marker. -/
def cmAlreadyInjected : ConfigMap :=
  ⟨"ns", "cm", [(injectCABundleMarkerKey, "true")], [(InjectionDataKey, "myca")]⟩

/-- Concrete ConfigMap carrying the trigger marker whose data does not hold
the injection key. -/
def cmNeedsInjection : ConfigMap :=
  ⟨"ns", "cm", [(injectCABundleMarkerKey, "true")], [("extra", "x")]⟩

/-- Concrete ConfigMap without the trigger marker. -/
def cmNoMarker : ConfigMap := ⟨"ns", "cm", [("other", "v")], [("a", "b"), ("c", "d")]⟩

/-! ## Helper lemmas -/

lemma sync_some_shape (ca : String) (cm u : ConfigMap) (h : sync ca cm = some u) :
    u = { cm with data := [(InjectionDataKey, ca)] } := by
  unfold sync ensureConfigMapCABundleInjection at h
  by_cases hm : hasInjectCABundleMarker cm
  · by_cases hskip : cm.data.lookup InjectionDataKey = some ca ∧ cm.data.length = 1
    · simp [hm, hskip] at h
    · simp [hm, hskip] at h
      exact h.symm
  · simp [hm] at h

lemma sync_of_already (ca : String) (cm : ConfigMap) (h : cm.data = [(InjectionDataKey, ca)]) :
    sync ca cm = none := by
  unfold sync ensureConfigMapCABundleInjection
  by_cases hm : hasInjectCABundleMarker cm
  · simp [hm, h, List.lookup]
  · simp [hm]

lemma passes_found (d : Deployment) (h : passes (FetchResult.found d) = true) :
    d.deletionTimestampSet = false ∧ isDeploymentStatusAvailable d = true := by
  unfold passes at h
  rw [Bool.and_eq_true, Bool.not_eq_true'] at h
  exact h

lemma syncStatusLoop_disqualify (fetch : String → FetchResult) (conds : List OperatorCondition)
    (dep : String) (hdq : passes (fetch dep) = false) :
    ∀ (pre : List String), (∀ p ∈ pre, passes (fetch p) = true) →
      ∀ post vr ex cp msg,
        syncStatusLoop fetch conds (pre ++ dep :: post) vr ex cp msg =
          Sum.inl (earlyOut conds dep (fetch dep)) := by
  intro pre
  induction pre with
  | nil =>
    intro _ post vr ex cp msg
    cases hf : fetch dep with
    | notFound => simp [syncStatusLoop, hf, earlyOut]
    | otherError e => simp [syncStatusLoop, hf, earlyOut]
    | found d =>
      rw [hf] at hdq
      unfold passes at hdq
      by_cases hdel : d.deletionTimestampSet
      · simp [syncStatusLoop, hf, earlyOut, hdel]
      · have hav : isDeploymentStatusAvailable d = false := by
          rw [Bool.and_eq_false_iff] at hdq
          rcases hdq with h | h
          · rw [Bool.not_eq_false'] at h
            exact absurd h hdel
          · exact h
        simp [syncStatusLoop, hf, earlyOut, hdel, hav]
  | cons p ps ih =>
    intro hpass post vr ex cp msg
    have hp : passes (fetch p) = true := hpass p (List.mem_cons_self p ps)
    cases hfp : fetch p with
    | notFound => rw [hfp] at hp; simp [passes] at hp
    | otherError e => rw [hfp] at hp; simp [passes] at hp
    | found d =>
      rw [hfp] at hp
      obtain ⟨hdel, hav⟩ := passes_found d hp
      rw [List.cons_append]
      show syncStatusLoop fetch conds (p :: (ps ++ dep :: post)) vr ex cp msg = _
      simp only [syncStatusLoop, hfp, hdel, hav]
      exact ih (fun q hq => hpass q (List.mem_cons_of_mem p hq)) post _ _ _ _

lemma syncStatus_disqualify (fetch : String → FetchResult) (conds : List OperatorCondition)
    (pre : List String) (dep : String) (post : List String)
    (hpre : ∀ p ∈ pre, passes (fetch p) = true) (hdq : passes (fetch dep) = false) :
    syncStatus fetch conds (pre ++ dep :: post) = earlyOut conds dep (fetch dep) := by
  unfold syncStatus
  rw [syncStatusLoop_disqualify fetch conds dep hdq pre hpre post 0 0 0 ""]

lemma syncStatusLoop_inl_false (fetch : String → FetchResult) (conds : List OperatorCondition) :
    ∀ (deps : List String) (vr ex cp : Nat) (msg : String) (c : List OperatorCondition)
      (b : Bool) (e : Option String),
      syncStatusLoop fetch conds deps vr ex cp msg = Sum.inl (c, b, e) → b = false := by
  intro deps
  induction deps with
  | nil => intro vr ex cp msg c b e h; simp [syncStatusLoop] at h
  | cons dep rest ih =>
    intro vr ex cp msg c b e h
    cases hf : fetch dep with
    | notFound =>
      simp [syncStatusLoop, hf] at h
      exact h.2.1
    | otherError err =>
      simp [syncStatusLoop, hf] at h
      exact h.2.1
    | found d =>
      by_cases hdel : d.deletionTimestampSet
      · simp [syncStatusLoop, hf, hdel] at h
        exact h.2.1
      · by_cases hav : isDeploymentStatusAvailable d
        · simp only [syncStatusLoop, hf, hdel, hav, if_false, if_true,
            Bool.not_true, Bool.false_eq_true] at h
          exact ih _ _ _ _ _ _ _ h
        · simp [syncStatusLoop, hf, hdel, hav] at h
          exact h.2.1

lemma syncStatusLoop_err_some (fetch : String → FetchResult) (conds : List OperatorCondition) :
    ∀ (deps : List String) (vr ex cp : Nat) (msg : String) (c : List OperatorCondition)
      (b : Bool) (e : String),
      syncStatusLoop fetch conds deps vr ex cp msg = Sum.inl (c, b, some e) →
      ∃ pre dep post, deps = pre ++ dep :: post ∧ (∀ p ∈ pre, passes (fetch p) = true) ∧
        fetch dep = FetchResult.otherError e := by
  intro deps
  induction deps with
  | nil => intro vr ex cp msg c b e h; simp [syncStatusLoop] at h
  | cons dep rest ih =>
    intro vr ex cp msg c b e h
    cases hf : fetch dep with
    | notFound => simp [syncStatusLoop, hf] at h
    | otherError err =>
      simp [syncStatusLoop, hf] at h
      refine ⟨[], dep, rest, rfl, by simp, ?_⟩
      rw [hf, h.2.2]
    | found d =>
      by_cases hdel : d.deletionTimestampSet
      · simp [syncStatusLoop, hf, hdel] at h
      · by_cases hav : isDeploymentStatusAvailable d
        · simp only [syncStatusLoop, hf, hdel, hav, if_false, if_true,
            Bool.not_true, Bool.false_eq_true] at h
          obtain ⟨pre, dq, post, hsplit, hpass, herr⟩ := ih _ _ _ _ _ _ _ h
          refine ⟨dep :: pre, dq, post, by rw [hsplit, List.cons_append], ?_, herr⟩
          intro p hp
          rcases List.mem_cons.mp hp with rfl | hp
          · rw [hf]
            unfold passes
            simp_all
          · exact hpass p hp
        · simp [syncStatusLoop, hf, hdel, hav] at h

lemma complete_imp_availUpdated (d : Deployment) (hav : isDeploymentStatusAvailable d = true)
    (hc : isDeploymentStatusComplete d = true) :
    isDeploymentStatusAvailableAndUpdated d = true := by
  unfold isDeploymentStatusAvailable at hav
  unfold isDeploymentStatusComplete at hc
  unfold isDeploymentStatusAvailableAndUpdated
  cases hsr : d.specReplicas with
  | none =>
    rw [hsr] at hc
    simp only [decide_eq_true_eq, Bool.and_eq_true] at hav hc ⊢
    omega
  | some r =>
    rw [hsr] at hc
    simp only [decide_eq_true_eq, Bool.and_eq_true] at hav hc ⊢
    omega

lemma syncStatusLoop_inr_counts (fetch : String → FetchResult) (conds : List OperatorCondition) :
    ∀ (deps : List String) (vr0 ex0 cp0 : Nat) (msg0 : String) (vr ex cp : Nat) (msg : String),
      syncStatusLoop fetch conds deps vr0 ex0 cp0 msg0 = Sum.inr (vr, ex, cp, msg) →
      vr0 ≤ vr ∧ ex0 ≤ ex ∧ cp0 ≤ cp ∧ cp - cp0 ≤ vr - vr0 ∧ vr - vr0 ≤ ex - ex0 ∧
        ex - ex0 = deps.length := by
  intro deps
  induction deps with
  | nil =>
    intro vr0 ex0 cp0 msg0 vr ex cp msg h
    simp [syncStatusLoop] at h
    obtain ⟨h1, h2, h3, h4⟩ := h
    subst h1; subst h2; subst h3
    simp
  | cons dep rest ih =>
    intro vr0 ex0 cp0 msg0 vr ex cp msg h
    cases hf : fetch dep with
    | notFound => simp [syncStatusLoop, hf] at h
    | otherError e => simp [syncStatusLoop, hf] at h
    | found d =>
      by_cases hdel : d.deletionTimestampSet
      · simp [syncStatusLoop, hf, hdel] at h
      · by_cases hav : isDeploymentStatusAvailable d
        · simp only [syncStatusLoop, hf, hdel, hav, if_false, if_true,
            Bool.not_true, Bool.false_eq_true] at h
          by_cases hcp : isDeploymentStatusComplete d
          · have hvu := complete_imp_availUpdated d (by simpa using hav) hcp
            rw [hcp, hvu] at h
            simp only [if_true] at h
            have := ih _ _ _ _ _ _ _ _ h
            simp only [List.length_cons]
            omega
          · by_cases hvu : isDeploymentStatusAvailableAndUpdated d
            · rw [if_neg hcp, if_pos hvu, if_neg hcp, if_pos hvu] at h
              have := ih _ _ _ _ _ _ _ _ h
              simp only [List.length_cons]
              omega
            · rw [if_neg hcp, if_neg hvu, if_neg hvu] at h
              have := ih _ _ _ _ _ _ _ _ h
              simp only [List.length_cons]
              omega
        · simp [syncStatusLoop, hf, hdel, hav] at h

lemma syncStatus_eq_of_inl (fetch : String → FetchResult) (conds : List OperatorCondition)
    (deps : List String) (r : List OperatorCondition × Bool × Option String)
    (h : syncStatusLoop fetch conds deps 0 0 0 "" = Sum.inl r) :
    syncStatus fetch conds deps = r := by
  unfold syncStatus
  rw [h]

lemma syncStatus_eq_of_inr (fetch : String → FetchResult) (conds : List OperatorCondition)
    (deps : List String) (vr ex cp : Nat) (msg : String)
    (h : syncStatusLoop fetch conds deps 0 0 0 "" = Sum.inr (vr, ex, cp, msg)) :
    syncStatus fetch conds deps =
      (if cp = deps.length then
        (setProgressingFalse (setAvailableTrue conds "ManagedDeploymentsCompleteAndUpdated")
          "ManagedDeploymentsCompleteAndUpdated" "All service-ca-operator deployments updated", true, none)
      else if vr = deps.length then
        (setProgressingTrue (setAvailableTrue conds "ManagedDeploymentsAvailableAndUpdated")
          "ManagedDeploymentsAvailableAndUpdated" msg, true, none)
      else if ex = deps.length then
        (setProgressingTrue (setAvailableTrue conds "ManagedDeploymentsAvailable")
          "ManagedDeploymentsAvailable" msg, false, none)
      else
        (conds, false, none)) := by
  unfold syncStatus
  rw [h]

lemma filter_setOperatorCondition (p : OperatorCondition → Bool) (c : OperatorCondition)
    (hp : ∀ x : OperatorCondition, x.type = c.type → p x = false)
    (hpc : p c = false) :
    ∀ conds, (setOperatorCondition conds c).filter p = conds.filter p := by
  intro conds
  induction conds with
  | nil => simp [setOperatorCondition, List.filter_cons, hpc]
  | cons x xs ih =>
    unfold setOperatorCondition
    by_cases hx : x.type = c.type
    · rw [if_pos hx]
      have h1 : p x = false := hp x hx
      have h2 : p { x with status := c.status, reason := c.reason, message := c.message } = false :=
        hp _ hx
      simp [List.filter_cons, h1, h2]
    · rw [if_neg hx]
      simp [List.filter_cons, ih]

lemma find_setOperatorCondition_ne (t : String) (c : OperatorCondition) (h : ¬ c.type = t) :
    ∀ conds, findOperatorCondition t (setOperatorCondition conds c) = findOperatorCondition t conds := by
  intro conds
  induction conds with
  | nil => simp [setOperatorCondition, findOperatorCondition, h]
  | cons x xs ih =>
    unfold setOperatorCondition
    by_cases hx : x.type = c.type
    · rw [if_pos hx]
      have hxt : ¬ x.type = t := by rw [hx]; exact h
      simp [findOperatorCondition, hxt]
    · rw [if_neg hx]
      by_cases hxt : x.type = t
      · simp [findOperatorCondition, hxt]
      · simp [findOperatorCondition, hxt, ih]

lemma find_setOperatorCondition_self (c : OperatorCondition) :
    ∀ conds, ∃ c', findOperatorCondition c.type (setOperatorCondition conds c) = some c' ∧
      c'.status = c.status := by
  intro conds
  induction conds with
  | nil =>
    refine ⟨c, ?_, rfl⟩
    simp [setOperatorCondition, findOperatorCondition]
  | cons x xs ih =>
    unfold setOperatorCondition
    by_cases hx : x.type = c.type
    · rw [if_pos hx]
      refine ⟨{ x with status := c.status, reason := c.reason, message := c.message }, ?_, rfl⟩
      simp [findOperatorCondition, hx]
    · rw [if_neg hx]
      obtain ⟨c', hc', hs⟩ := ih
      refine ⟨c', ?_, hs⟩
      simp [findOperatorCondition, hx, hc']

lemma syncStatusLoop_inl_conds (fetch : String → FetchResult) (conds : List OperatorCondition) :
    ∀ (deps : List String) (vr ex cp : Nat) (msg : String) (c : List OperatorCondition)
      (b : Bool) (e : Option String),
      syncStatusLoop fetch conds deps vr ex cp msg = Sum.inl (c, b, e) →
      (∃ m, c = notReadyConds conds m ∧ e = none) ∨
        (∃ m err, c = fetchErrorConds conds m err ∧ e = some err) := by
  intro deps
  induction deps with
  | nil => intro vr ex cp msg c b e h; simp [syncStatusLoop] at h
  | cons dep rest ih =>
    intro vr ex cp msg c b e h
    cases hf : fetch dep with
    | notFound =>
      simp [syncStatusLoop, hf] at h
      exact Or.inl ⟨_, h.1.symm, h.2.2.symm⟩
    | otherError err =>
      simp [syncStatusLoop, hf] at h
      exact Or.inr ⟨_, err, h.1.symm, h.2.2.symm⟩
    | found d =>
      by_cases hdel : d.deletionTimestampSet
      · simp [syncStatusLoop, hf, hdel] at h
        exact Or.inl ⟨_, h.1.symm, h.2.2.symm⟩
      · by_cases hav : isDeploymentStatusAvailable d
        · simp only [syncStatusLoop, hf, hdel, hav, if_false, if_true,
            Bool.not_true, Bool.false_eq_true] at h
          exact ih _ _ _ _ _ _ _ h
        · simp [syncStatusLoop, hf, hdel, hav] at h
          exact Or.inl ⟨_, h.1.symm, h.2.2.symm⟩

lemma filter_set_of_type_ne (t : String) (c : OperatorCondition) (h : ¬ c.type = t)
    (conds : List OperatorCondition) :
    (setOperatorCondition conds c).filter (fun x => x.type = t) =
      conds.filter (fun x => x.type = t) := by
  apply filter_setOperatorCondition
  · intro x hx
    simp [hx, h]
  · simp [h]

lemma filter_two_sets (t : String) (c1 c2 : OperatorCondition)
    (h1 : ¬ c1.type = t) (h2 : ¬ c2.type = t) (conds : List OperatorCondition) :
    (setOperatorCondition (setOperatorCondition conds c1) c2).filter (fun x => x.type = t) =
      conds.filter (fun x => x.type = t) := by
  rw [filter_set_of_type_ne t c2 h2, filter_set_of_type_ne t c1 h1]

lemma find_two_sets (t : String) (c1 c2 : OperatorCondition)
    (h1 : ¬ c1.type = t) (h2 : ¬ c2.type = t) (conds : List OperatorCondition) :
    findOperatorCondition t (setOperatorCondition (setOperatorCondition conds c1) c2) =
      findOperatorCondition t conds := by
  rw [find_setOperatorCondition_ne t c2 h2, find_setOperatorCondition_ne t c1 h1]

lemma find_setOperatorCondition_self₂ (t : String) (c : OperatorCondition) (h : c.type = t)
    (conds : List OperatorCondition) :
    ∃ c', findOperatorCondition t (setOperatorCondition conds c) = some c' ∧
      c'.status = c.status := by
  subst h
  exact find_setOperatorCondition_self c conds

/-! ## Claims -/

/-- C1: `syncStatus` returns boolean `true` iff the per-deployment loop ran
to completion (no disqualifying deployment) and either the `complete` count
or the `versionReady` count equals the total deployment count; whenever the
loop completes with all deployments existing (`existing` tier) but not all
`versionReady`, the boolean is `false`. -/
theorem syncStatus_version_gating (fetch : String → FetchResult)
    (conds : List OperatorCondition) (deps : List String) :
    ((syncStatus fetch conds deps).2.1 = true ↔
      ∃ vr ex cp msg, syncStatusLoop fetch conds deps 0 0 0 "" = Sum.inr (vr, ex, cp, msg) ∧
        (cp = deps.length ∨ vr = deps.length))
    ∧ (∀ vr ex cp msg, syncStatusLoop fetch conds deps 0 0 0 "" = Sum.inr (vr, ex, cp, msg) →
        ex = deps.length → vr ≠ deps.length → (syncStatus fetch conds deps).2.1 = false) := by
  cases hloop : syncStatusLoop fetch conds deps 0 0 0 "" with
  | inl r =>
    obtain ⟨c, b, eo⟩ := r
    have hb := syncStatusLoop_inl_false fetch conds deps 0 0 0 "" c b eo hloop
    have hs := syncStatus_eq_of_inl fetch conds deps (c, b, eo) hloop
    constructor
    · constructor
      · intro htrue
        rw [hs] at htrue
        have hbt : b = true := htrue
        rw [hb] at hbt
        exact absurd hbt (by simp)
      · rintro ⟨vr, ex, cp, msg, heq, hor⟩
        exact absurd heq (by simp)
    · intro vr ex cp msg heq
      exact absurd heq (by simp)
  | inr q =>
    obtain ⟨vr, ex, cp, msg⟩ := q
    have hcounts := syncStatusLoop_inr_counts fetch conds deps 0 0 0 "" vr ex cp msg hloop
    have hs := syncStatus_eq_of_inr fetch conds deps vr ex cp msg hloop
    constructor
    · constructor
      · intro htrue
        refine ⟨vr, ex, cp, msg, rfl, ?_⟩
        by_cases hcp : cp = deps.length
        · exact Or.inl hcp
        · by_cases hvr : vr = deps.length
          · exact Or.inr hvr
          · exfalso
            rw [hs] at htrue
            by_cases hex : ex = deps.length
            · simp [hcp, hvr, hex] at htrue
            · simp [hcp, hvr, hex] at htrue
      · rintro ⟨vr', ex', cp', msg', heq, hor⟩
        injection heq with heq
        rw [Prod.mk.injEq, Prod.mk.injEq, Prod.mk.injEq] at heq
        obtain ⟨h1, h2, h3, h4⟩ := heq
        subst h1; subst h2; subst h3; subst h4
        rw [hs]
        rcases hor with hcp | hvr
        · simp [hcp]
        · by_cases hcp : cp = deps.length
          · simp [hcp]
          · simp [hcp, hvr]
    · intro vr' ex' cp' msg' heq hex hvr
      injection heq with heq
      rw [Prod.mk.injEq, Prod.mk.injEq, Prod.mk.injEq] at heq
      obtain ⟨h1, h2, h3, h4⟩ := heq
      subst h1; subst h2; subst h3; subst h4
      rw [hs]
      have hcp : ¬ cp = deps.length := by omega
      simp [hcp, hvr, hex]

/-- Witness for C1: with one fully rolled-out deployment the boolean is
`true`, through `syncStatus_version_gating` at a concrete input. -/
theorem syncStatus_version_gating_witness :
    (syncStatus (fun _ => FetchResult.found dCompleteEx) [] ["a"]).2.1 = true := by
  have h := (syncStatus_version_gating (fun _ => FetchResult.found dCompleteEx) [] ["a"]).1
  exact h.mpr ⟨1, 1, 1, "", by decide, Or.inl (by decide)⟩

/-- C2 (counterexample): for a ConfigMap that carries the trigger marker and
whose data already holds exactly the injection key with the current CA value,
two consecutive `Sync` calls issue zero external updates, not exactly one. -/
theorem sync_twice_exactly_one_update_cex :
    ¬ ((applySync "myca" cmAlreadyInjected).2
        + (applySync "myca" (applySync "myca" cmAlreadyInjected).1).2 = 1) := by
  decide

/-- C2 (amended): calling `Sync` twice in a row (the second call observing
the stored result of the first) issues at most one external update, the
second invocation always issues none, and when the target's data mapping
already contains exactly the injection key mapped to the current source
value, `Sync` issues no update at all. -/
theorem sync_twice_at_most_one_update (ca : String) (cm : ConfigMap) :
    (applySync ca (applySync ca cm).1).2 = 0
    ∧ (applySync ca cm).2 + (applySync ca (applySync ca cm).1).2 ≤ 1
    ∧ (cm.data = [(InjectionDataKey, ca)] → (applySync ca cm).2 = 0) := by
  have hsecond : (applySync ca (applySync ca cm).1).2 = 0 := by
    cases h : sync ca cm with
    | none => simp [applySync, h]
    | some u =>
      have hu := sync_some_shape ca cm u h
      have hnone : sync ca u = none := by
        apply sync_of_already
        rw [hu]
      simp [applySync, h, hnone]
  refine ⟨hsecond, ?_, ?_⟩
  · have h1 : (applySync ca cm).2 ≤ 1 := by
      cases h : sync ca cm <;> simp [applySync, h]
    omega
  · intro hdata
    simp [applySync, sync_of_already ca cm hdata]

/-- Witness for C2 (amended): a first `Sync` on the already-injected
ConfigMap issues no update. -/
theorem sync_twice_at_most_one_update_witness :
    (applySync "myca" cmAlreadyInjected).2 = 0 :=
  (sync_twice_at_most_one_update "myca" cmAlreadyInjected).2.2 rfl

/-- C3: every update `Sync` issues carries a data mapping that is exactly
the single entry mapping the injection key to the current CA value. -/
theorem sync_update_payload (ca : String) (cm u : ConfigMap) (h : sync ca cm = some u) :
    u.data = [(InjectionDataKey, ca)] ∧ u.data.length = 1
    ∧ u.data.lookup InjectionDataKey = some ca := by
  have hu := sync_some_shape ca cm u h
  rw [hu]
  refine ⟨rfl, rfl, ?_⟩
  simp [List.lookup]

/-- Witness for C3: the update issued for a marked ConfigMap with unrelated
data has the single-entry payload. -/
theorem sync_update_payload_witness :
    (⟨"ns", "cm", [(injectCABundleMarkerKey, "true")], [(InjectionDataKey, "c")]⟩ : ConfigMap).data
        = [(InjectionDataKey, "c")]
    ∧ (⟨"ns", "cm", [(injectCABundleMarkerKey, "true")], [(InjectionDataKey, "c")]⟩ : ConfigMap).data.length = 1
    ∧ (⟨"ns", "cm", [(injectCABundleMarkerKey, "true")], [(InjectionDataKey, "c")]⟩ : ConfigMap).data.lookup InjectionDataKey = some "c" :=
  sync_update_payload "c" cmNeedsInjection _ (by decide)

/-- C4: a ConfigMap without the trigger marker makes `Sync` return nil with
zero external update calls, whatever the data contents and whatever the
store's update behaviour. -/
theorem sync_no_marker_noop (ca : String) (updateErr : ConfigMap → Option String)
    (cm : ConfigMap) (h : hasInjectCABundleMarker cm = false) :
    sync ca cm = none ∧ syncResultError ca updateErr cm = none := by
  have hs : sync ca cm = none := by
    unfold sync
    simp [h]
  exact ⟨hs, by simp [syncResultError, hs]⟩

/-- Witness for C4 at a concrete marker-free ConfigMap. -/
theorem sync_no_marker_noop_witness :
    sync "c" cmNoMarker = none ∧ syncResultError "c" (fun u => some u.name) cmNoMarker = none :=
  sync_no_marker_noop "c" (fun u => some u.name) cmNoMarker (by decide)

/-- C5: when the loop reaches a deployment whose fetch fails with an error
other than NotFound (all deployments before it passed the disqualification
checks), `syncStatus` sets Failing=True carrying the error detail (reason
the status message, message the error text), sets Available=False, and
returns `(false, some e)`; and a non-nil error is returned only in that
situation. -/
theorem syncStatus_fetch_error (fetch : String → FetchResult)
    (conds : List OperatorCondition) (deps : List String) :
    (∀ pre dep post e, deps = pre ++ dep :: post →
      (∀ p ∈ pre, passes (fetch p) = true) → fetch dep = FetchResult.otherError e →
      syncStatus fetch conds deps =
        (fetchErrorConds conds (s!"Error getting deployment {dep}") e, false, some e))
    ∧ (∀ e, (syncStatus fetch conds deps).2.2 = some e →
      ∃ pre dep post, deps = pre ++ dep :: post ∧ (∀ p ∈ pre, passes (fetch p) = true) ∧
        fetch dep = FetchResult.otherError e) := by
  constructor
  · intro pre dep post e hsplit hpre herr
    subst hsplit
    rw [syncStatus_disqualify fetch conds pre dep post hpre (by rw [herr]; rfl), herr]
    rfl
  · intro e herr
    cases hloop : syncStatusLoop fetch conds deps 0 0 0 "" with
    | inl r =>
      obtain ⟨c, b, eo⟩ := r
      unfold syncStatus at herr
      rw [hloop] at herr
      have heo : eo = some e := herr
      rw [heo] at hloop
      exact syncStatusLoop_err_some fetch conds deps 0 0 0 "" c b e hloop
    | inr q =>
      obtain ⟨vr, ex, cp, msg⟩ := q
      unfold syncStatus at herr
      rw [hloop] at herr
      by_cases h1 : cp = deps.length
      · simp [h1] at herr
      · by_cases h2 : vr = deps.length
        · simp [h1, h2] at herr
        · by_cases h3 : ex = deps.length
          · simp [h1, h2, h3] at herr
          · simp [h1, h2, h3] at herr

/-- Witness for C5: a single deployment whose fetch errors. -/
theorem syncStatus_fetch_error_witness :
    syncStatus (fun _ => FetchResult.otherError "boom") [] ["a"] =
      (fetchErrorConds [] "Error getting deployment a" "boom", false, some "boom") :=
  (syncStatus_fetch_error (fun _ => FetchResult.otherError "boom") [] ["a"]).1 [] "a" [] "boom"
    rfl (by simp) rfl

/-- C6: when the loop reaches a deployment (all deployments before it passed
the checks) that is NotFound, or being deleted, or without available
replicas — in that check order — `syncStatus` sets Progressing=True with the
corresponding message, Available=False, and returns `(false, none)`. -/
theorem syncStatus_retryable_early_returns (fetch : String → FetchResult)
    (conds : List OperatorCondition) (pre : List String) (dep : String) (post : List String)
    (hpre : ∀ p ∈ pre, passes (fetch p) = true) :
    (fetch dep = FetchResult.notFound →
      syncStatus fetch conds (pre ++ dep :: post) =
        (notReadyConds conds s!"Deployment {dep} does not exist", false, none))
    ∧ (∀ d, fetch dep = FetchResult.found d → d.deletionTimestampSet = true →
      syncStatus fetch conds (pre ++ dep :: post) =
        (notReadyConds conds s!"Deployment {dep} is being deleted", false, none))
    ∧ (∀ d, fetch dep = FetchResult.found d → d.deletionTimestampSet = false →
        isDeploymentStatusAvailable d = false →
      syncStatus fetch conds (pre ++ dep :: post) =
        (notReadyConds conds s!"Deployment {dep} does not have available replicas", false, none)) := by
  refine ⟨?_, ?_, ?_⟩
  · intro hf
    rw [syncStatus_disqualify fetch conds pre dep post hpre (by rw [hf]; rfl), hf]
    rfl
  · intro d hf hdel
    rw [syncStatus_disqualify fetch conds pre dep post hpre (by rw [hf]; simp [passes, hdel]), hf]
    simp [earlyOut, hdel]
  · intro d hf hdel hav
    rw [syncStatus_disqualify fetch conds pre dep post hpre
      (by rw [hf]; simp [passes, hdel, hav]), hf]
    simp [earlyOut, hdel]

/-- Witness for C6: a single NotFound deployment. -/
theorem syncStatus_retryable_early_returns_witness :
    syncStatus (fun _ => FetchResult.notFound) [] ["a"] =
      (notReadyConds [] "Deployment a does not exist", false, none) :=
  (syncStatus_retryable_early_returns (fun _ => FetchResult.notFound) [] [] "a" [] (by simp)).1 rfl

/-- C7: if the deployments before position `i` all pass the checks and the
deployment at position `i` disqualifies, the whole result of `syncStatus`
(conditions, boolean and error) is independent of everything after position
`i`: two fetch behaviours agreeing up to and including `i` and two arbitrary
suffixes give identical results. -/
theorem syncStatus_short_circuit (fetch₁ fetch₂ : String → FetchResult)
    (conds : List OperatorCondition) (pre : List String) (dep : String)
    (post₁ post₂ : List String)
    (hagree : ∀ p ∈ pre, fetch₁ p = fetch₂ p) (hdep : fetch₁ dep = fetch₂ dep)
    (hpre : ∀ p ∈ pre, passes (fetch₁ p) = true) (hdq : passes (fetch₁ dep) = false) :
    syncStatus fetch₁ conds (pre ++ dep :: post₁) = syncStatus fetch₂ conds (pre ++ dep :: post₂) := by
  rw [syncStatus_disqualify fetch₁ conds pre dep post₁ hpre hdq,
    syncStatus_disqualify fetch₂ conds pre dep post₂
      (fun p hp => by rw [← hagree p hp]; exact hpre p hp) (by rw [← hdep]; exact hdq),
    hdep]

/-- Witness for C7: a NotFound first deployment makes the result blind to
the differing suffixes and fetch behaviours. -/
theorem syncStatus_short_circuit_witness :
    syncStatus (fun _ => FetchResult.notFound) [] ["a", "b"] =
      syncStatus (fun n => if n = "a" then FetchResult.notFound else FetchResult.found dCompleteEx)
        [] ["a", "c"] :=
  syncStatus_short_circuit (fun _ => FetchResult.notFound)
    (fun n => if n = "a" then FetchResult.notFound else FetchResult.found dCompleteEx)
    [] [] "a" ["b"] ["c"] (by simp) (by decide) (by simp) rfl

/-- C8: tier monotonicity — when the per-deployment loop of `syncStatus`
runs to completion, the counts satisfy `complete ≤ versionReady ≤ existing =
total`; in particular, all deployments `complete` forces the `versionReady`
and `existing` counts to equal the total deployment count. -/
theorem syncStatus_tier_monotonicity (fetch : String → FetchResult)
    (conds : List OperatorCondition) (deps : List String) (vr ex cp : Nat) (msg : String)
    (h : syncStatusLoop fetch conds deps 0 0 0 "" = Sum.inr (vr, ex, cp, msg)) :
    cp ≤ vr ∧ vr ≤ ex ∧ ex = deps.length ∧
      (cp = deps.length → vr = deps.length ∧ ex = deps.length) := by
  have := syncStatusLoop_inr_counts fetch conds deps 0 0 0 "" vr ex cp msg h
  omega

/-- Witness for C8 at one fully rolled-out deployment. -/
theorem syncStatus_tier_monotonicity_witness :
    1 ≤ 1 ∧ 1 ≤ 1 ∧ 1 = (["a"] : List String).length ∧
      (1 = (["a"] : List String).length →
        1 = (["a"] : List String).length ∧ 1 = (["a"] : List String).length) :=
  syncStatus_tier_monotonicity (fun _ => FetchResult.found dCompleteEx) [] ["a"] 1 1 1 "" (by decide)

/-- C9: with an empty deployment list `syncStatus` performs no fetch (its
result is independent of the fetch behaviour), sets Available=True and
Progressing=False with reason `ManagedDeploymentsCompleteAndUpdated`, and
returns `(true, none)`. -/
theorem syncStatus_empty_deployments (fetch : String → FetchResult)
    (conds : List OperatorCondition) :
    syncStatus fetch conds [] =
      (setProgressingFalse (setAvailableTrue conds "ManagedDeploymentsCompleteAndUpdated")
        "ManagedDeploymentsCompleteAndUpdated" "All service-ca-operator deployments updated", true, none)
    ∧ ∀ g : String → FetchResult, syncStatus fetch conds [] = syncStatus g conds [] :=
  ⟨rfl, fun _ => rfl⟩

/-- C10: `syncStatus` leaves every condition whose type differs from
Available, Progressing and Failing untouched; and the Failing condition is
either left exactly as it was or holds status True — together with a
non-nil returned error — so a recorded Failing=True is never cleared. -/
theorem syncStatus_condition_frame (fetch : String → FetchResult)
    (conds : List OperatorCondition) (deps : List String) :
    (∀ t, ¬ t = "Available" → ¬ t = "Progressing" → ¬ t = "Failing" →
      (syncStatus fetch conds deps).1.filter (fun c => c.type = t) =
        conds.filter (fun c => c.type = t))
    ∧ (findOperatorCondition "Failing" (syncStatus fetch conds deps).1 =
        findOperatorCondition "Failing" conds
      ∨ ∃ c, findOperatorCondition "Failing" (syncStatus fetch conds deps).1 = some c ∧
          c.status = ConditionStatus.ctrue ∧ (syncStatus fetch conds deps).2.2.isSome = true) := by
  cases hloop : syncStatusLoop fetch conds deps 0 0 0 "" with
  | inl r =>
    obtain ⟨c, b, eo⟩ := r
    have hs := syncStatus_eq_of_inl fetch conds deps (c, b, eo) hloop
    rcases syncStatusLoop_inl_conds fetch conds deps 0 0 0 "" c b eo hloop with
      ⟨m, hc, he⟩ | ⟨m, err, hc, he⟩
    · constructor
      · intro t hA hP hF
        rw [hs]
        simp only
        rw [hc]
        unfold notReadyConds setAvailableFalse setProgressingTrue
        exact filter_two_sets t _ _ (Ne.symm hP) (Ne.symm hA) conds
      · left
        rw [hs]
        simp only
        rw [hc]
        unfold notReadyConds setAvailableFalse setProgressingTrue
        exact find_two_sets "Failing" _ _ (by simp) (by simp) conds
    · constructor
      · intro t hA hP hF
        rw [hs]
        simp only
        rw [hc]
        unfold fetchErrorConds setAvailableFalse setFailingTrue
        exact filter_two_sets t _ _ (Ne.symm hF) (Ne.symm hA) conds
      · right
        rw [hs]
        simp only
        rw [hc, he]
        unfold fetchErrorConds setAvailableFalse setFailingTrue
        rw [find_setOperatorCondition_ne "Failing" _ (by simp)]
        obtain ⟨c', hc', hst⟩ := find_setOperatorCondition_self₂ "Failing"
          ⟨"Failing", ConditionStatus.ctrue, m, err⟩ rfl conds
        exact ⟨c', hc', hst, rfl⟩
  | inr q =>
    obtain ⟨vr, ex, cp, msg⟩ := q
    have hs := syncStatus_eq_of_inr fetch conds deps vr ex cp msg hloop
    constructor
    · intro t hA hP hF
      rw [hs]
      by_cases h1 : cp = deps.length
      · simp only [h1, if_true]
        unfold setProgressingFalse setAvailableTrue
        exact filter_two_sets t _ _ (Ne.symm hA) (Ne.symm hP) conds
      · by_cases h2 : vr = deps.length
        · simp only [h1, h2, if_false, if_true]
          unfold setProgressingTrue setAvailableTrue
          exact filter_two_sets t _ _ (Ne.symm hA) (Ne.symm hP) conds
        · by_cases h3 : ex = deps.length
          · simp only [h1, h2, h3, if_false, if_true]
            unfold setProgressingTrue setAvailableTrue
            exact filter_two_sets t _ _ (Ne.symm hA) (Ne.symm hP) conds
          · simp only [h1, h2, h3, if_false]
    · left
      rw [hs]
      by_cases h1 : cp = deps.length
      · simp only [h1, if_true]
        unfold setProgressingFalse setAvailableTrue
        exact find_two_sets "Failing" _ _ (by simp) (by simp) conds
      · by_cases h2 : vr = deps.length
        · simp only [h1, h2, if_false, if_true]
          unfold setProgressingTrue setAvailableTrue
          exact find_two_sets "Failing" _ _ (by simp) (by simp) conds
        · by_cases h3 : ex = deps.length
          · simp only [h1, h2, h3, if_false, if_true]
            unfold setProgressingTrue setAvailableTrue
            exact find_two_sets "Failing" _ _ (by simp) (by simp) conds
          · simp only [h1, h2, h3, if_false]

/-- Witness for C10: an unrelated `Upgradeable` condition survives a
NotFound early return unchanged. -/
theorem syncStatus_condition_frame_witness :
    (syncStatus (fun _ => FetchResult.notFound)
        [⟨"Upgradeable", ConditionStatus.cunknown, "r", "m"⟩] ["a"]).1.filter
      (fun c => c.type = "Upgradeable") =
      [(⟨"Upgradeable", ConditionStatus.cunknown, "r", "m"⟩ : OperatorCondition)].filter
        (fun c => c.type = "Upgradeable") :=
  (syncStatus_condition_frame (fun _ => FetchResult.notFound)
    [⟨"Upgradeable", ConditionStatus.cunknown, "r", "m"⟩] ["a"]).1 "Upgradeable"
    (by decide) (by decide) (by decide)

end ServiceCAOperator
